import Mathlib

/-!
Verification of the embr-action build trigger-and-poll logic.

Shallow embedding of the JavaScript source in `src/src/index.js` (with the
variant files `src/unnamed/part_000` .. `part_002` consulted where the claims
cite them).  Response bodies are modelled as records of the fields the code
actually reads (`status`, `complete`, `message`); the network is modelled as
a function from the attempt index to the outcome of that HTTP GET (a parsed
body, or a thrown transport error).  The `while (attempts < maxAttempts)`
loop of `pollBuildStatus` is encoded with explicit fuel kept in lockstep
with the `attempts` counter (`fuel = maxAttempts - attempts`).
-/

/-- Fields of a poll/trigger response body that `pollBuildStatus` in
`src/src/index.js` reads: `response.data.status`, `response.data.complete`,
and the `message` field of the initial placeholder value of `lastResponse`.
A missing field is `none`. -/
structure ResponseData where
  status : Option String
  complete : Option Bool
  message : Option String
deriving DecidableEq, BEq, Repr

/-- Outcome of one HTTP GET issued by the poll loop: either the parsed body
(`response.data`), or a thrown transport error (the `catch` branch). -/
inductive AttemptOutcome where
  | ok (data : ResponseData)
  | err
deriving DecidableEq, BEq, Repr

/-- Success test of `src/src/index.js` lines 117-120: the build is complete
when `status` is `'completed'`, `'success'` or `'succeeded'`, or when
`complete === true`. -/
def isSuccess (r : ResponseData) : Bool :=
  r.status == some "completed" || r.status == some "success" ||
  r.status == some "succeeded" || r.complete == some true

/-- Failure test of `src/src/index.js` lines 129-130: `status` is `'failed'`
or `'error'`. -/
def isFailure (r : ResponseData) : Bool :=
  r.status == some "failed" || r.status == some "error"

/-- Status classification of the spec's Status Interpreter, read off the
branch order of `pollBuildStatus` in `src/src/index.js` lines 117-136:
the success test runs first, then the failure test, anything else keeps
polling. -/
inductive StatusKind where
  | running
  | succeeded
  | failed
deriving DecidableEq, BEq, Repr

/-- Classification performed by one loop body of `pollBuildStatus`
(`src/src/index.js` lines 117-136), success conditions tested before
failure conditions. -/
def interpret (r : ResponseData) : StatusKind :=
  if isSuccess r then .succeeded
  else if isFailure r then .failed
  else .running

/-- Tag of the value returned by `pollBuildStatus`: `'completed'`,
`'failed'` or `'timeout'` (`src/src/index.js` lines 122, 133, 161). -/
inductive PollStatus where
  | completed
  | failed
  | timeout
deriving DecidableEq, BEq, Repr

/-- Return value of `pollBuildStatus`: `{ status, response }`. -/
structure PollResult where
  status : PollStatus
  response : ResponseData
deriving DecidableEq, BEq, Repr

/-- Return value of `pollBuildStatus` together with instrumentation the
claims quantify over: the number of HTTP GET calls issued and the number of
inter-attempt sleeps performed. -/
structure PollTrace where
  result : PollResult
  calls : Nat
  sleeps : Nat
deriving DecidableEq, BEq, Repr

/-- Initial value of `lastResponse` in `pollBuildStatus`
(`src/src/index.js` line 95): `{ status: 'unknown', message: 'No response
received' }`. -/
def initialLastResponse : ResponseData :=
  { status := some "unknown", complete := none, message := some "No response received" }

/-- An attempt is non-terminal when it throws, or parses to a body the loop
classifies as still running. -/
def attemptNonTerminal : AttemptOutcome → Bool
  | .err => true
  | .ok d => decide (interpret d = .running)

/-- Body of the `while (attempts < maxAttempts)` loop of `pollBuildStatus`
(`src/src/index.js` lines 101-156), with fuel kept in lockstep with the
`attempts` counter (`fuel = maxAttempts - attempts`).  On a parsed body the
code first stores it in `lastResponse`, then tests success, then failure,
then increments `attempts` and sleeps iff `attempts < maxAttempts` after the
increment; on a thrown error it sleeps iff `attempts + 1 < maxAttempts` and
then increments `attempts` (`lastResponse` untouched). -/
def pollAux (net : Nat → AttemptOutcome) (maxAttempts : Nat) :
    Nat → Nat → ResponseData → Nat → Nat → PollTrace
  | 0, _attempts, last, calls, sleeps => ⟨⟨.timeout, last⟩, calls, sleeps⟩
  | fuel + 1, attempts, last, calls, sleeps =>
    match net attempts with
    | .ok d =>
      if isSuccess d then ⟨⟨.completed, d⟩, calls + 1, sleeps⟩
      else if isFailure d then ⟨⟨.failed, d⟩, calls + 1, sleeps⟩
      else
        pollAux net maxAttempts fuel (attempts + 1) d (calls + 1)
          (if attempts + 1 < maxAttempts then sleeps + 1 else sleeps)
    | .err =>
      pollAux net maxAttempts fuel (attempts + 1) last (calls + 1)
        (if attempts + 1 < maxAttempts then sleeps + 1 else sleeps)

/-- `pollBuildStatus(apiBaseUrl, projectId, buildId, pollingInterval,
maxAttempts, timeout)` of `src/src/index.js` lines 93-164, abstracted over
the network (`net i` is the outcome of the GET issued on the iteration with
`attempts = i`). -/
def pollBuildStatus (net : Nat → AttemptOutcome) (maxAttempts : Nat) : PollTrace :=
  pollAux net maxAttempts maxAttempts 0 initialLastResponse 0 0

/-- Body carried by the timeout return value when the iterations from
`start` for `fuel` steps are all non-terminal: the data of the last
successfully parsed attempt, else the incoming `last` value. -/
def lastOk (net : Nat → AttemptOutcome) (last : ResponseData) :
    Nat → Nat → ResponseData
  | _start, 0 => last
  | start, fuel + 1 =>
    match net start with
    | .ok d => lastOk net d (start + 1) fuel
    | .err => lastOk net last (start + 1) fuel

/-- Unfolding of the positive-fuel loop body. -/
lemma pollAux_succ (net : Nat → AttemptOutcome) (maxAttempts fuel attempts : Nat)
    (last : ResponseData) (calls sleeps : Nat) :
    pollAux net maxAttempts (fuel + 1) attempts last calls sleeps =
      match net attempts with
      | .ok d =>
        if isSuccess d then ⟨⟨.completed, d⟩, calls + 1, sleeps⟩
        else if isFailure d then ⟨⟨.failed, d⟩, calls + 1, sleeps⟩
        else
          pollAux net maxAttempts fuel (attempts + 1) d (calls + 1)
            (if attempts + 1 < maxAttempts then sleeps + 1 else sleeps)
      | .err =>
        pollAux net maxAttempts fuel (attempts + 1) last (calls + 1)
          (if attempts + 1 < maxAttempts then sleeps + 1 else sleeps) := rfl

/-- The loop classifies a body as still running exactly when both the
success and the failure tests are false. -/
lemma interpret_eq_running_iff (d : ResponseData) :
    interpret d = .running ↔ isSuccess d = false ∧ isFailure d = false := by
  unfold interpret
  by_cases hs : isSuccess d <;> by_cases hf : isFailure d <;> simp [hs, hf]

/-- Restatement of `attemptNonTerminal` on a parsed body. -/
lemma attemptNonTerminal_ok_iff (d : ResponseData) :
    attemptNonTerminal (.ok d) = true ↔ isSuccess d = false ∧ isFailure d = false := by
  simp only [attemptNonTerminal, decide_eq_true_eq]
  exact interpret_eq_running_iff d

/-- Each loop iteration makes one HTTP call, so the loop makes at most
`fuel` further calls. -/
lemma pollAux_calls_le (net : Nat → AttemptOutcome) (maxAttempts : Nat) :
    ∀ fuel attempts last calls sleeps,
      (pollAux net maxAttempts fuel attempts last calls sleeps).calls ≤ calls + fuel := by
  intro fuel
  induction fuel with
  | zero => intro attempts last calls sleeps; simp [pollAux]
  | succ fuel ih =>
    intro attempts last calls sleeps
    rw [pollAux_succ]
    cases hnet : net attempts with
    | ok d =>
      dsimp only
      by_cases hs : isSuccess d = true
      · rw [if_pos hs]
        dsimp only
        omega
      · rw [if_neg hs]
        by_cases hf : isFailure d = true
        · rw [if_pos hf]
          dsimp only
          omega
        · rw [if_neg hf]
          have h := ih (attempts + 1) d (calls + 1)
            (if attempts + 1 < maxAttempts then sleeps + 1 else sleeps)
          omega
    | err =>
      dsimp only
      have h := ih (attempts + 1) last (calls + 1)
        (if attempts + 1 < maxAttempts then sleeps + 1 else sleeps)
      omega

/-- With fuel in lockstep with the `attempts` counter, the loop sleeps at
most `fuel - 1` further times: the final iteration never sleeps, because
the sleep is guarded by `attempts + 1 < maxAttempts`. -/
lemma pollAux_sleeps_le (net : Nat → AttemptOutcome) (maxAttempts : Nat) :
    ∀ fuel attempts last calls sleeps, attempts + fuel = maxAttempts →
      (pollAux net maxAttempts fuel attempts last calls sleeps).sleeps ≤ sleeps + (fuel - 1) := by
  intro fuel
  induction fuel with
  | zero => intro attempts last calls sleeps _; simp [pollAux]
  | succ fuel ih =>
    intro attempts last calls sleeps hinv
    rw [pollAux_succ]
    cases hnet : net attempts with
    | ok d =>
      dsimp only
      by_cases hs : isSuccess d = true
      · rw [if_pos hs]
        dsimp only
        omega
      · rw [if_neg hs]
        by_cases hf : isFailure d = true
        · rw [if_pos hf]
          dsimp only
          omega
        · rw [if_neg hf]
          by_cases hlt : attempts + 1 < maxAttempts
          · have h := ih (attempts + 1) d (calls + 1) (sleeps + 1) (by omega)
            rw [if_pos hlt]
            omega
          · have h := ih (attempts + 1) d (calls + 1) sleeps (by omega)
            rw [if_neg hlt]
            omega
    | err =>
      dsimp only
      by_cases hlt : attempts + 1 < maxAttempts
      · have h := ih (attempts + 1) last (calls + 1) (sleeps + 1) (by omega)
        rw [if_pos hlt]
        omega
      · have h := ih (attempts + 1) last (calls + 1) sleeps (by omega)
        rw [if_neg hlt]
        omega

/-- When every remaining attempt is non-terminal, the loop runs its full
budget and returns the timeout value carrying the last parsed body (or the
incoming `last` value when nothing parsed), with exactly `fuel` further
calls and `fuel - 1` further sleeps. -/
lemma pollAux_all_nonterminal (net : Nat → AttemptOutcome) (maxAttempts : Nat) :
    ∀ fuel attempts last calls sleeps, attempts + fuel = maxAttempts →
      (∀ i, attempts ≤ i → i < maxAttempts → attemptNonTerminal (net i) = true) →
      pollAux net maxAttempts fuel attempts last calls sleeps =
        ⟨⟨.timeout, lastOk net last attempts fuel⟩, calls + fuel, sleeps + (fuel - 1)⟩ := by
  intro fuel
  induction fuel with
  | zero => intro attempts last calls sleeps _ _; simp [pollAux, lastOk]
  | succ fuel ih =>
    intro attempts last calls sleeps hinv hnt
    have hlt : attempts < maxAttempts := by omega
    have hcur := hnt attempts (Nat.le_refl _) hlt
    rw [pollAux_succ]
    cases hnet : net attempts with
    | ok d =>
      rw [hnet] at hcur
      obtain ⟨hs, hf⟩ := (attemptNonTerminal_ok_iff d).mp hcur
      dsimp only
      rw [if_neg (by simp [hs]), if_neg (by simp [hf])]
      have hrest : ∀ i, attempts + 1 ≤ i → i < maxAttempts → attemptNonTerminal (net i) = true :=
        fun i hi hi2 => hnt i (by omega) hi2
      by_cases hc : attempts + 1 < maxAttempts
      · rw [if_pos hc, ih (attempts + 1) d (calls + 1) (sleeps + 1) (by omega) hrest]
        have hfuel : 0 < fuel := by omega
        simp only [lastOk, hnet]
        congr 1
        · omega
        · omega
      · rw [if_neg hc, ih (attempts + 1) d (calls + 1) sleeps (by omega) hrest]
        have hfuel : fuel = 0 := by omega
        simp only [lastOk, hnet]
        congr 1
        · omega
        · omega
    | err =>
      dsimp only
      have hrest : ∀ i, attempts + 1 ≤ i → i < maxAttempts → attemptNonTerminal (net i) = true :=
        fun i hi hi2 => hnt i (by omega) hi2
      by_cases hc : attempts + 1 < maxAttempts
      · rw [if_pos hc, ih (attempts + 1) last (calls + 1) (sleeps + 1) (by omega) hrest]
        have hfuel : 0 < fuel := by omega
        simp only [lastOk, hnet]
        congr 1
        · omega
        · omega
      · rw [if_neg hc, ih (attempts + 1) last (calls + 1) sleeps (by omega) hrest]
        have hfuel : fuel = 0 := by omega
        simp only [lastOk, hnet]
        congr 1
        · omega
        · omega

/-- When the attempts before index `k` are all non-terminal and attempt `k`
parses to a terminal body `d`, the loop returns at attempt `k` with the
matching terminal tag and payload `d`, having made exactly `k - attempts + 1`
further calls and `k - attempts` further sleeps. -/
lemma pollAux_first_terminal (net : Nat → AttemptOutcome) (maxAttempts k : Nat)
    (d : ResponseData) :
    ∀ fuel attempts last calls sleeps, attempts + fuel = maxAttempts →
      attempts ≤ k → k < maxAttempts →
      (∀ i, attempts ≤ i → i < k → attemptNonTerminal (net i) = true) →
      net k = .ok d → attemptNonTerminal (.ok d) = false →
      pollAux net maxAttempts fuel attempts last calls sleeps =
        ⟨⟨if isSuccess d then .completed else .failed, d⟩,
          calls + (k - attempts) + 1, sleeps + (k - attempts)⟩ := by
  intro fuel
  induction fuel with
  | zero => intro attempts last calls sleeps hinv hak hkm _ _ _; omega
  | succ fuel ih =>
    intro attempts last calls sleeps hinv hak hkm hpre hd ht
    rw [pollAux_succ]
    rcases Nat.eq_or_lt_of_le hak with heq | hlt
    · subst heq
      rw [hd]
      dsimp only
      have hterm : isSuccess d = true ∨ isFailure d = true := by
        by_contra hcon
        push_neg at hcon
        have h1 : isSuccess d = false := by
          cases h : isSuccess d
          · rfl
          · exact absurd h hcon.1
        have h2 : isFailure d = false := by
          cases h : isFailure d
          · rfl
          · exact absurd h hcon.2
        rw [(attemptNonTerminal_ok_iff d).mpr ⟨h1, h2⟩] at ht
        simp at ht
      by_cases hs : isSuccess d = true
      · rw [if_pos hs, if_pos hs]
        congr 1 <;> omega
      · have hf : isFailure d = true := hterm.resolve_left hs
        rw [if_neg hs, if_pos hf, if_neg hs]
        congr 1 <;> omega
    · have hcur := hpre attempts (Nat.le_refl _) hlt
      have hrest : ∀ i, attempts + 1 ≤ i → i < k → attemptNonTerminal (net i) = true :=
        fun i hi hi2 => hpre i (by omega) hi2
      have hc : attempts + 1 < maxAttempts := by omega
      cases hnet : net attempts with
      | ok d' =>
        rw [hnet] at hcur
        obtain ⟨hs, hf⟩ := (attemptNonTerminal_ok_iff d').mp hcur
        dsimp only
        rw [if_neg (by simp [hs]), if_neg (by simp [hf]), if_pos hc,
          ih (attempts + 1) d' (calls + 1) (sleeps + 1) (by omega) (by omega) hkm hrest hd ht]
        congr 1 <;> omega
      | err =>
        dsimp only
        rw [if_pos hc,
          ih (attempts + 1) last (calls + 1) (sleeps + 1) (by omega) (by omega) hkm hrest hd ht]
        congr 1 <;> omega

/-- GitHub context fields read by `getRepositoryContext`: `context.ref` and
`context.sha` (the other fields are irrelevant to branch resolution and
omitted). -/
structure GhContext where
  ref : String
  sha : String
deriving DecidableEq, Repr

/-- Value of the `refType` string computed by `getRepositoryContext`. -/
inductive RefType where
  | branch
  | tag
  | pullRequest
  | unknown
deriving DecidableEq, Repr

/-- Fields of the object returned by `getRepositoryContext` that branch
resolution reads (`src/src/index.js` lines 33-47). -/
structure RepoContext where
  ref : String
  refType : RefType
  branch : Option String
  tag : Option String
  commit : String
deriving DecidableEq, Repr

/-- `getRepositoryContext` of `src/src/index.js` lines 15-48 (identical in
all variant files).  `context.ref.replace(p, '')` removes the first
occurrence of `p`; under the guarding `startsWith(p)` that is exactly
dropping the length-of-`p` leading characters. -/
def getRepositoryContext (ctx : GhContext) : RepoContext :=
  if ctx.ref.startsWith "refs/heads/" then
    let name := ctx.ref.drop ("refs/heads/".length)
    { ref := name, refType := .branch, branch := some name, tag := none, commit := ctx.sha }
  else if ctx.ref.startsWith "refs/tags/" then
    let name := ctx.ref.drop ("refs/tags/".length)
    { ref := name, refType := .tag, branch := none, tag := some name, commit := ctx.sha }
  else if ctx.ref.startsWith "refs/pull/" then
    { ref := ctx.ref, refType := .pullRequest, branch := none, tag := none, commit := ctx.sha }
  else
    { ref := ctx.ref, refType := .unknown, branch := none, tag := none, commit := ctx.sha }

/-- Branch-name resolution of `run` in `src/src/index.js` lines 195-199:
`let branchName = repoContext.branch || repoContext.ref;` followed by the
fallback `if (!branchName || branchName === 'unknown') branchName =
repoContext.commit;` (JavaScript `||` skips `null` and the empty string).
Returns the resolved name together with whether the fallback warning was
emitted. -/
def resolveBranchName (rc : RepoContext) : String × Bool :=
  let branchName :=
    match rc.branch with
    | some s => if s = "" then rc.ref else s
    | none => rc.ref
  if branchName = "" ∨ branchName = "unknown" then (rc.commit, true)
  else (branchName, false)

/-- Branch-name resolution of the `part_000` / `part_001` variants
(`src/unnamed/part_000` lines 179-183): same as `resolveBranchName` but the
fallback also fires when `repoContext.refType === 'unknown'`. -/
def resolveBranchNameV0 (rc : RepoContext) : String × Bool :=
  let branchName :=
    match rc.branch with
    | some s => if s = "" then rc.ref else s
    | none => rc.ref
  if branchName = "" ∨ branchName = "unknown" ∨ rc.refType = .unknown then (rc.commit, true)
  else (branchName, false)

/-- Branch policy in the words of the amended claim: a branch ref uses the
stripped branch name, a tag ref the stripped tag name, a pull-request ref
the raw ref, and an undetectable ref kind the raw ref unchanged; the commit
SHA (with a warning) is used only when the name so obtained is empty or the
literal string `unknown`. -/
def branchPolicySpec (ctx : GhContext) : String × Bool :=
  if ctx.ref.startsWith "refs/heads/" then
    let name := ctx.ref.drop ("refs/heads/".length)
    if name = "" ∨ name = "unknown" then (ctx.sha, true) else (name, false)
  else if ctx.ref.startsWith "refs/tags/" then
    let name := ctx.ref.drop ("refs/tags/".length)
    if name = "" ∨ name = "unknown" then (ctx.sha, true) else (name, false)
  else if ctx.ref.startsWith "refs/pull/" then
    (ctx.ref, false)
  else
    if ctx.ref = "" ∨ ctx.ref = "unknown" then (ctx.sha, true) else (ctx.ref, false)

/-- Shape of an HTTP request as the code assembles it: method, URL, an
optional JSON object body (as an association list), headers, and the axios
timeout option when one is passed. -/
structure HttpRequest where
  method : String
  url : String
  jsonBody : Option (List (String × String))
  headers : List (String × String)
  timeoutMs : Option Nat
deriving DecidableEq, Repr

/-- Request assembled by `createBuild` in `src/src/index.js` lines 53-71:
`axios.post` to `` `${apiBaseUrl}/projects/${projectId}/builds` `` with body
`{ branch, commitSha }`, headers `accept: text/plain`, `Content-Type:
application/json`, `User-Agent: embr-action`, and the configured timeout. -/
def createBuildRequest (apiBaseUrl projectId branch commitSha : String)
    (timeout : Nat) : HttpRequest :=
  { method := "POST"
  , url := apiBaseUrl ++ "/projects/" ++ projectId ++ "/builds"
  , jsonBody := some [("branch", branch), ("commitSha", commitSha)]
  , headers := [("accept", "text/plain"), ("Content-Type", "application/json"),
      ("User-Agent", "embr-action")]
  , timeoutMs := some timeout }

/-- Request assembled by each iteration of `pollBuildStatus` in
`src/src/index.js` lines 97 and 105-111: `axios.get` of
`` `${apiBaseUrl}/projects/${projectId}/builds/${buildId}` `` with headers
`accept: text/plain`, `User-Agent: embr-action`, and the configured
timeout. -/
def pollStatusRequest (apiBaseUrl projectId buildId : String)
    (timeout : Nat) : HttpRequest :=
  { method := "GET"
  , url := apiBaseUrl ++ "/projects/" ++ projectId ++ "/builds/" ++ buildId
  , jsonBody := none
  , headers := [("accept", "text/plain"), ("User-Agent", "embr-action")]
  , timeoutMs := some timeout }

/-- Trigger request in the words of the amended claim: POST of
`{branch, commitSha}` to `{endpointBase}/projects/{projectId}/builds` with
`accept: text/plain` (not `application/json`), `Content-Type:
application/json`, and the `embr-action` user agent. -/
def specTriggerRequest (endpointBase projectId branch commitSha : String)
    (timeout : Nat) : HttpRequest :=
  { method := "POST"
  , url := endpointBase ++ "/projects/" ++ projectId ++ "/builds"
  , jsonBody := some [("branch", branch), ("commitSha", commitSha)]
  , headers := [("accept", "text/plain"), ("Content-Type", "application/json"),
      ("User-Agent", "embr-action")]
  , timeoutMs := some timeout }

/-- Status poll in the words of the amended claim: GET of
`{endpointBase}/projects/{projectId}/builds/{buildId}` with `accept:
text/plain` (not `application/json`) and the `embr-action` user agent. -/
def specPollRequest (endpointBase projectId buildId : String)
    (timeout : Nat) : HttpRequest :=
  { method := "GET"
  , url := endpointBase ++ "/projects/" ++ projectId ++ "/builds/" ++ buildId
  , jsonBody := none
  , headers := [("accept", "text/plain"), ("User-Agent", "embr-action")]
  , timeoutMs := some timeout }

/-- Fields of the trigger (`createBuild`) response body that `run` in
`src/src/index.js` reads: the three candidate id fields of line 214 and the
immediate-status fields of lines 227-240. -/
structure TriggerResponse where
  id : Option String
  buildId : Option String
  build_id : Option String
  status : Option String
  complete : Option Bool
deriving DecidableEq, Repr

/-- JavaScript `a || b` on two possibly-missing strings: `b` when `a` is
absent or the empty string (both falsy), else `a`. -/
def jsOr (a b : Option String) : Option String :=
  match a with
  | some s => if s = "" then b else some s
  | none => b

/-- JavaScript truthiness test `!v` for a possibly-missing string. -/
def isFalsyStr (v : Option String) : Bool :=
  match v with
  | none => true
  | some s => s = ""

/-- Build-id extraction of `src/src/index.js` line 214:
`buildResponse.id || buildResponse.buildId || buildResponse.build_id`. -/
def extractBuildId (t : TriggerResponse) : Option String :=
  jsOr t.id (jsOr t.buildId t.build_id)

/-- Immediate-completion test of `run` in `src/src/index.js` lines 227-230. -/
def triggerIsCompleted (t : TriggerResponse) : Bool :=
  t.status == some "completed" || t.status == some "success" ||
  t.status == some "succeeded" || t.complete == some true

/-- Immediate-failure test of `run` in `src/src/index.js` lines 239-240. -/
def triggerIsFailed (t : TriggerResponse) : Bool :=
  t.status == some "failed" || t.status == some "error"

/-- String written by `core.setOutput('status', ...)` for each poll result
tag (`src/src/index.js` lines 122, 133, 161 and 262). -/
def statusString : PollStatus → String
  | .completed => "completed"
  | .failed => "failed"
  | .timeout => "timeout"

/-- Observable outcome of `run`: the value of the `status` output if one
was set, whether `core.setFailed` was called, and how many polling HTTP
calls were made. -/
structure RunReport where
  statusOutput : Option String
  failed : Bool
  pollCalls : Nat
deriving DecidableEq, Repr

/-- Tail of `run` in `src/src/index.js` lines 213-276, from the point where
the trigger response is in hand: extract a build id (no id → set outputs
and complete successfully, lines 216-222); otherwise check for an immediate
terminal status (lines 227-246); otherwise poll, set the `status` output to
the poll tag, and call `setFailed` exactly when the tag is `failed` or
`timeout` (lines 252-276). -/
def runAfterTrigger (t : TriggerResponse) (net : Nat → AttemptOutcome)
    (maxAttempts : Nat) : RunReport :=
  if isFalsyStr (extractBuildId t) then
    { statusOutput := some "completed", failed := false, pollCalls := 0 }
  else if triggerIsCompleted t then
    { statusOutput := some "completed", failed := false, pollCalls := 0 }
  else if triggerIsFailed t then
    { statusOutput := some "failed", failed := true, pollCalls := 0 }
  else
    let p := pollBuildStatus net maxAttempts
    { statusOutput := some (statusString p.result.status)
    , failed := decide (p.result.status ≠ .completed)
    , pollCalls := p.calls }

/-- Branch policy of the `part_000` / `part_001` variants in the claim's
words: branch refs use the stripped branch name, tag refs the stripped tag
name, pull-request refs the raw ref, and an undetectable ref kind always
falls back to the commit SHA with a warning; additionally an empty or
literally-`unknown` detected name falls back to the SHA. -/
def branchPolicySpecV0 (ctx : GhContext) : String × Bool :=
  if ctx.ref.startsWith "refs/heads/" then
    let name := ctx.ref.drop ("refs/heads/".length)
    if name = "" ∨ name = "unknown" then (ctx.sha, true) else (name, false)
  else if ctx.ref.startsWith "refs/tags/" then
    let name := ctx.ref.drop ("refs/tags/".length)
    if name = "" ∨ name = "unknown" then (ctx.sha, true) else (name, false)
  else if ctx.ref.startsWith "refs/pull/" then
    (ctx.ref, false)
  else
    (ctx.sha, true)

/-- A network where every GET throws a transport error. -/
def allErrNet : Nat → AttemptOutcome := fun _ => .err

/-- A network whose first GET throws and whose later GETs parse to a
non-terminal `pending` body. -/
def pendingNet : Nat → AttemptOutcome := fun i =>
  if i = 0 then .err else .ok ⟨some "pending", none, none⟩

/-- A network whose attempt 0 is in progress and whose attempt 1 reports a
terminal `succeeded` status. -/
def succeedAtOneNet : Nat → AttemptOutcome := fun i =>
  if i = 0 then .ok ⟨some "in_progress", none, none⟩
  else .ok ⟨some "succeeded", none, none⟩

/-- A trigger response with no id field at all. -/
def emptyTriggerResponse : TriggerResponse :=
  { id := none, buildId := none, build_id := none, status := none, complete := none }

/-- C1 counterexample: for the trigger response with no id field, `run` in
`src/src/index.js` makes zero polling calls but never calls `setFailed` and
sets the `status` output to `completed` — the invocation is reported as a
success, while the claim says it must be reported as a failure. -/
theorem noBuildId_counterexample :
    (runAfterTrigger emptyTriggerResponse allErrNet 30).pollCalls = 0 ∧
    (runAfterTrigger emptyTriggerResponse allErrNet 30).failed = false ∧
    (runAfterTrigger emptyTriggerResponse allErrNet 30).statusOutput = some "completed" :=
  ⟨rfl, rfl, rfl⟩

/-- C1 (amended): whenever the trigger response has no extractable id
(`id`, `buildId`, `build_id` all missing or empty), `run` in
`src/src/index.js` makes zero polling HTTP calls and completes reporting
success with output status `completed` (it does not fail). -/
theorem noBuildId_zero_polls_success (t : TriggerResponse)
    (net : Nat → AttemptOutcome) (maxAttempts : Nat)
    (h : isFalsyStr (extractBuildId t) = true) :
    runAfterTrigger t net maxAttempts =
      { statusOutput := some "completed", failed := false, pollCalls := 0 } := by
  simp [runAfterTrigger, h]

/-- C1 witness: a trigger response whose id fields are empty strings
(JavaScript-falsy) takes the no-id path. -/
theorem noBuildId_zero_polls_success_witness :
    runAfterTrigger
        { id := some "", buildId := none, build_id := some "",
          status := some "queued", complete := none } allErrNet 5 =
      { statusOutput := some "completed", failed := false, pollCalls := 0 } :=
  noBuildId_zero_polls_success _ _ _ (by decide)

/-- C2: for every network behaviour and every `maxAttempts > 0`,
`pollBuildStatus` issues at most `maxAttempts` HTTP GET calls and performs
at most `maxAttempts - 1` inter-attempt sleeps. -/
theorem poll_bounded (net : Nat → AttemptOutcome) (maxAttempts : Nat)
    (_h : 0 < maxAttempts) :
    (pollBuildStatus net maxAttempts).calls ≤ maxAttempts ∧
    (pollBuildStatus net maxAttempts).sleeps ≤ maxAttempts - 1 := by
  constructor
  · have hc := pollAux_calls_le net maxAttempts maxAttempts 0 initialLastResponse 0 0
    simpa [pollBuildStatus] using hc
  · have hs := pollAux_sleeps_le net maxAttempts maxAttempts 0 initialLastResponse 0 0 (by omega)
    simpa [pollBuildStatus] using hs

/-- C2 witness: with three attempts that all throw, at most 3 calls and 2
sleeps occur. -/
theorem poll_bounded_witness :
    (pollBuildStatus allErrNet 3).calls ≤ 3 ∧
    (pollBuildStatus allErrNet 3).sleeps ≤ 3 - 1 :=
  poll_bounded allErrNet 3 (by decide)

/-- C3 counterexample: the claim's token sets include `"Succeeded"` and
`"Failed"`, but `src/src/index.js` compares case-sensitively against
`completed`/`success`/`succeeded` and `failed`/`error` only, so a body with
status `"Succeeded"` (resp. `"Failed"`) is classified as still running, not
as Succeeded (resp. Failed). -/
theorem interpret_tokens_counterexample :
    interpret ⟨some "Succeeded", none, none⟩ = .running ∧
    interpret ⟨some "Failed", none, none⟩ = .running ∧
    StatusKind.running ≠ .succeeded ∧ StatusKind.running ≠ .failed := by decide

/-- C3 (amended): exact classification of `src/src/index.js` lines 117-136:
Succeeded iff `status` is one of `completed`/`success`/`succeeded` or
`complete === true`; Failed iff not Succeeded and `status` is `failed` or
`error`; Running otherwise (in particular when both fields are absent). -/
theorem interpret_classification (r : ResponseData) :
    (interpret r = .succeeded ↔
      (r.status = some "completed" ∨ r.status = some "success" ∨
        r.status = some "succeeded" ∨ r.complete = some true)) ∧
    (interpret r = .failed ↔
      (¬(r.status = some "completed" ∨ r.status = some "success" ∨
          r.status = some "succeeded" ∨ r.complete = some true) ∧
        (r.status = some "failed" ∨ r.status = some "error"))) ∧
    (interpret r = .running ↔
      (¬(r.status = some "completed" ∨ r.status = some "success" ∨
          r.status = some "succeeded" ∨ r.complete = some true) ∧
        ¬(r.status = some "failed" ∨ r.status = some "error"))) := by
  have hs : (r.status = some "completed" ∨ r.status = some "success" ∨
      r.status = some "succeeded" ∨ r.complete = some true) ↔ isSuccess r = true := by
    simp [isSuccess, or_assoc]
  have hf : (r.status = some "failed" ∨ r.status = some "error") ↔ isFailure r = true := by
    simp [isFailure]
  simp only [hs, hf]
  cases hS : isSuccess r <;> cases hF : isFailure r <;> simp [interpret, hS, hF]

/-- C4 counterexample: when no attempt parses successfully the timeout
result does not carry "none": it carries the concrete placeholder object
`{ status: 'unknown', message: 'No response received' }` that `lastResponse`
was initialised with. -/
theorem timeout_placeholder_counterexample :
    (pollBuildStatus allErrNet 1).result.status = .timeout ∧
    (pollBuildStatus allErrNet 1).result.response = initialLastResponse ∧
    initialLastResponse =
      { status := some "unknown", complete := none,
        message := some "No response received" } ∧
    some (pollBuildStatus allErrNet 1).result.response ≠ (none : Option ResponseData) := by
  decide

/-- C4 (amended): if every one of the `maxAttempts` attempts is transient
or non-terminal, the poller returns the timeout tag after exactly
`maxAttempts` calls (and `maxAttempts - 1` sleeps), carrying the last
successfully parsed body if one exists and the placeholder
`initialLastResponse` otherwise — `lastOk` is by definition the data of the
last parsed attempt, defaulting to the placeholder. -/
theorem timeout_exact_attempts (net : Nat → AttemptOutcome) (maxAttempts : Nat)
    (h : ∀ i, i < maxAttempts → attemptNonTerminal (net i) = true) :
    pollBuildStatus net maxAttempts =
      ⟨⟨.timeout, lastOk net initialLastResponse 0 maxAttempts⟩,
        maxAttempts, maxAttempts - 1⟩ := by
  have hall := pollAux_all_nonterminal net maxAttempts maxAttempts 0 initialLastResponse 0 0
    (by omega) (fun i _ hi => h i hi)
  simpa [pollBuildStatus] using hall

/-- C4 witness: one transient error followed by a parsed `pending` body
exhausts a 2-attempt budget and carries the pending body. -/
theorem timeout_exact_attempts_witness :
    pollBuildStatus pendingNet 2 =
      ⟨⟨.timeout, ⟨some "pending", none, none⟩⟩, 2, 1⟩ := by
  have h := timeout_exact_attempts pendingNet 2 (by decide)
  rw [h]
  rfl

/-- C5: if the attempts before index `k < maxAttempts` are non-terminal and
attempt `k` parses to a terminal body, the loop returns immediately at
attempt `k` with that terminal state and payload: exactly `k + 1` HTTP
calls and `k` sleeps in total, so no attempt `k + 1` ever occurs. -/
theorem terminal_short_circuit (net : Nat → AttemptOutcome) (maxAttempts k : Nat)
    (d : ResponseData) (hk : k < maxAttempts)
    (hpre : ∀ i, i < k → attemptNonTerminal (net i) = true)
    (hd : net k = .ok d) (ht : attemptNonTerminal (.ok d) = false) :
    pollBuildStatus net maxAttempts =
      ⟨⟨if isSuccess d then .completed else .failed, d⟩, k + 1, k⟩ := by
  have h := pollAux_first_terminal net maxAttempts k d maxAttempts 0 initialLastResponse 0 0
    (by omega) (by omega) hk (fun i _ hi => hpre i hi) hd ht
  simpa [pollBuildStatus] using h

/-- C5 witness: a terminal `succeeded` body at attempt index 1 of a
5-attempt budget stops the loop after 2 calls and 1 sleep. -/
theorem terminal_short_circuit_witness :
    pollBuildStatus succeedAtOneNet 5 =
      ⟨⟨.completed, ⟨some "succeeded", none, none⟩⟩, 2, 1⟩ := by
  have h := terminal_short_circuit succeedAtOneNet 5 1 ⟨some "succeeded", none, none⟩
    (by decide) (by decide) (by decide) (by decide)
  rw [h]
  rfl

/-- C6: every invocation of the poller produces exactly one of the three
outcome tags `completed` (Succeeded), `failed`, `timeout`: whichever tag
the result carries excludes the other two. -/
theorem poll_outcome_exclusive (net : Nat → AttemptOutcome) (maxAttempts : Nat) :
    ((pollBuildStatus net maxAttempts).result.status = .completed ∧
      (pollBuildStatus net maxAttempts).result.status ≠ .failed ∧
      (pollBuildStatus net maxAttempts).result.status ≠ .timeout) ∨
    ((pollBuildStatus net maxAttempts).result.status = .failed ∧
      (pollBuildStatus net maxAttempts).result.status ≠ .completed ∧
      (pollBuildStatus net maxAttempts).result.status ≠ .timeout) ∨
    ((pollBuildStatus net maxAttempts).result.status = .timeout ∧
      (pollBuildStatus net maxAttempts).result.status ≠ .completed ∧
      (pollBuildStatus net maxAttempts).result.status ≠ .failed) := by
  generalize (pollBuildStatus net maxAttempts).result.status = s
  cases s
  · exact Or.inl ⟨rfl, by decide, by decide⟩
  · exact Or.inr (Or.inl ⟨rfl, by decide, by decide⟩)
  · exact Or.inr (Or.inr ⟨rfl, by decide, by decide⟩)

/-- C7: a body with `complete === true` and no recognised failure token in
its status field is classified Succeeded, however the status is spelled
(the success test of lines 117-120 fires on the `complete` flag alone). -/
theorem complete_true_succeeds (r : ResponseData) (hc : r.complete = some true)
    (_h1 : r.status ≠ some "failed") (_h2 : r.status ≠ some "error") :
    interpret r = .succeeded := by
  have hs : isSuccess r = true := by simp [isSuccess, hc]
  simp [interpret, hs]

/-- C7 witness: an arbitrarily spelled status with `complete: true`. -/
theorem complete_true_succeeds_witness :
    interpret ⟨some "WeIrDsPeLLiNg", some true, none⟩ = .succeeded :=
  complete_true_succeeds _ rfl (by decide) (by decide)

/-- C8 counterexample: for the undetectable ref `HEAD` with commit sha
`abc123`, `src/src/index.js` resolves the branch name to the raw ref
`HEAD` with no warning — not to the commit SHA as the claim states. -/
theorem branch_fallback_counterexample :
    (getRepositoryContext ⟨"HEAD", "abc123"⟩).refType = .unknown ∧
    resolveBranchName (getRepositoryContext ⟨"HEAD", "abc123"⟩) = ("HEAD", false) ∧
    ("HEAD", false) ≠ ("abc123", true) := by decide

/-- C8 (amended): `src/src/index.js` resolves the branch name to the
detected branch name for branch refs, the tag name for tags, the raw ref
for pull requests, and the raw ref unchanged for an undetectable kind,
falling back to the commit SHA (with a warning) only when the name so
obtained is empty or the literal string `unknown`; the `part_000` /
`part_001` variants additionally fall back to the commit SHA whenever the
ref kind is undetectable. -/
theorem branch_resolution_policy (ctx : GhContext) :
    resolveBranchName (getRepositoryContext ctx) = branchPolicySpec ctx ∧
    resolveBranchNameV0 (getRepositoryContext ctx) = branchPolicySpecV0 ctx := by
  constructor
  · unfold resolveBranchName getRepositoryContext branchPolicySpec
    by_cases h1 : ctx.ref.startsWith "refs/heads/"
    · rw [if_pos h1, if_pos h1]
      dsimp only
      by_cases he : ctx.ref.drop ("refs/heads/".length) = ""
      · rw [if_pos he]
      · rw [if_neg he]
    · rw [if_neg h1, if_neg h1]
      by_cases h2 : ctx.ref.startsWith "refs/tags/"
      · rw [if_pos h2, if_pos h2]
      · rw [if_neg h2, if_neg h2]
        by_cases h3 : ctx.ref.startsWith "refs/pull/"
        · rw [if_pos h3, if_pos h3]
          have hne : ¬(ctx.ref = "" ∨ ctx.ref = "unknown") := by
            rintro (h | h) <;> rw [h] at h3 <;> revert h3 <;> decide
          dsimp only
          rw [if_neg hne]
        · rw [if_neg h3, if_neg h3]
  · unfold resolveBranchNameV0 getRepositoryContext branchPolicySpecV0
    by_cases h1 : ctx.ref.startsWith "refs/heads/"
    · rw [if_pos h1, if_pos h1]
      dsimp only
      simp only [reduceCtorEq, or_false]
      by_cases he : ctx.ref.drop ("refs/heads/".length) = ""
      · rw [if_pos he]
      · rw [if_neg he]
    · rw [if_neg h1, if_neg h1]
      by_cases h2 : ctx.ref.startsWith "refs/tags/"
      · rw [if_pos h2, if_pos h2]
        dsimp only
        simp only [reduceCtorEq, or_false]
      · rw [if_neg h2, if_neg h2]
        by_cases h3 : ctx.ref.startsWith "refs/pull/"
        · rw [if_pos h3, if_pos h3]
          have hne : ¬(ctx.ref = "" ∨ ctx.ref = "unknown") := by
            rintro (h | h) <;> rw [h] at h3 <;> revert h3 <;> decide
          dsimp only
          simp only [reduceCtorEq, or_false]
          rw [if_neg hne]
        · rw [if_neg h3, if_neg h3]
          dsimp only
          simp only [reduceCtorEq, or_true, if_pos]

/-- C9 counterexample: the requests of `src/src/index.js` carry
`accept: text/plain`, not `Accept: application/json` as the claim states,
on both the trigger POST and the status-poll GET. -/
theorem accept_header_counterexample :
    ("accept", "text/plain") ∈ (createBuildRequest "https://api" "p1" "main" "sha1" 30000).headers ∧
    ("accept", "application/json") ∉
      (createBuildRequest "https://api" "p1" "main" "sha1" 30000).headers ∧
    ("Accept", "application/json") ∉
      (createBuildRequest "https://api" "p1" "main" "sha1" 30000).headers ∧
    ("accept", "text/plain") ∈ (pollStatusRequest "https://api" "p1" "b1" 30000).headers ∧
    ("accept", "application/json") ∉ (pollStatusRequest "https://api" "p1" "b1" 30000).headers ∧
    ("Accept", "application/json") ∉ (pollStatusRequest "https://api" "p1" "b1" 30000).headers := by
  decide

/-- C9 (amended): for all arguments, the trigger request built by
`createBuild` is the POST of `{branch, commitSha}` to
`{endpointBase}/projects/{projectId}/builds` with `accept: text/plain` and
`Content-Type: application/json`, and the status poll is the GET of
`{endpointBase}/projects/{projectId}/builds/{buildId}` with
`accept: text/plain`. -/
theorem request_shapes (endpointBase projectId branch commitSha buildId : String)
    (timeout : Nat) :
    createBuildRequest endpointBase projectId branch commitSha timeout =
      specTriggerRequest endpointBase projectId branch commitSha timeout ∧
    pollStatusRequest endpointBase projectId buildId timeout =
      specPollRequest endpointBase projectId buildId timeout :=
  ⟨rfl, rfl⟩

/-- C10: success classification takes precedence over failure: a body with
`complete === true` and a failed-set status token is classified Succeeded,
and a poll whose first attempt returns such a body ends with the
`completed` outcome after one call. -/
theorem success_precedence (r : ResponseData) (maxAttempts : Nat)
    (hc : r.complete = some true)
    (_hf : r.status = some "failed" ∨ r.status = some "error")
    (hn : 0 < maxAttempts) :
    interpret r = .succeeded ∧
    pollBuildStatus (fun _ => .ok r) maxAttempts = ⟨⟨.completed, r⟩, 1, 0⟩ := by
  have hs : isSuccess r = true := by simp [isSuccess, hc]
  have hi : interpret r = .succeeded := by simp [interpret, hs]
  refine ⟨hi, ?_⟩
  have ht : attemptNonTerminal (.ok r) = false := by
    simp [attemptNonTerminal, hi]
  have h := pollAux_first_terminal (fun _ => .ok r) maxAttempts 0 r maxAttempts 0
    initialLastResponse 0 0 (by omega) (by omega) hn
    (fun i _ hi2 => absurd hi2 (Nat.not_lt_zero i)) rfl ht
  simpa [pollBuildStatus, hs] using h

/-- C10 witness: `{"status":"failed","complete":true}` is Succeeded and a
3-attempt poll returns `completed` after one call. -/
theorem success_precedence_witness :
    interpret ⟨some "failed", some true, none⟩ = .succeeded ∧
    pollBuildStatus (fun _ => .ok ⟨some "failed", some true, none⟩) 3 =
      ⟨⟨.completed, ⟨some "failed", some true, none⟩⟩, 1, 0⟩ :=
  success_precedence _ 3 rfl (Or.inl rfl) (by decide)
